import Mathlib

/-!
Verification of the transcript backend's core logic, shallowly embedded from
the Python sources (`app.py`, `questionnaire_generator.py`,
`questionnaire_evaluator.py`).  Strings are modelled as `List Char`; machine
floats never enter the verified paths (the only float, `math.ceil` of a true
division of two small integers, is modelled as the exact rational ceiling).
External collaborators (the LLM client, `json.loads`) are parameters of the
embedded functions.  Raised Python exceptions are modelled with `Except`.
-/

/-- ASCII whitespace as recognised by Python's `str.split()` / `str.strip()`
(space, tab, newline, carriage return, vertical tab, form feed).  The rarer
Unicode whitespace code points are not modelled. -/
def pyWs (c : Char) : Bool :=
  c = ' ' || c = '\t' || c = '\n' || c = '\r' || c = Char.ofNat 11 || c = Char.ofNat 12

/-- Helper for `splitWords`: accumulates the current word (reversed) while
scanning the input. -/
def splitWordsAux (cur : List Char) : List Char → List (List Char)
  | [] => if cur.isEmpty then [] else [cur.reverse]
  | c :: cs =>
    if pyWs c then
      if cur.isEmpty then splitWordsAux [] cs
      else cur.reverse :: splitWordsAux [] cs
    else splitWordsAux (c :: cur) cs

/-- Python `transcript.split()`: split on runs of whitespace, discarding
empty tokens (`app.py`, line 58). -/
def splitWords (s : List Char) : List (List Char) :=
  splitWordsAux [] s

/-- Python `" ".join(words)`: concatenation with a single separating space
(`app.py`, line 63). -/
def joinSpace : List (List Char) → List Char
  | [] => []
  | [w] => w
  | w :: ws => w ++ ' ' :: joinSpace ws

/-- The whitespace-normalized form of a transcript: its words re-joined with
single spaces. -/
def normalizeWhitespace (t : List Char) : List Char :=
  joinSpace (splitWords t)

/-- One element of the list returned by `split_transcript` (`app.py`,
lines 60-66). -/
structure TranscriptChunk where
  chunk_id : Nat
  content : List Char
deriving Repr, DecidableEq

/-- Executable value of `math.ceil(n / m)` for `n : ℕ`, `m : ℤ`, `m ≠ 0`,
written with Euclidean integer division so that it reduces in the kernel.
`ceilDivQ_eq_ceil` proves it equal to the exact rational ceiling. -/
def ceilDivQ (n : ℕ) (m : ℤ) : ℤ :=
  if 0 < m then -((-(n : ℤ)) / m) else -((n : ℤ) / (-m))

/-- Embeds `split_transcript` (`app.py`, lines 57-66).  `words = transcript.split()`;
`num_chunks = math.ceil(len(words) / max_words)` raises `ZeroDivisionError`
when `max_words = 0` (modelled by `none`); chunk `i` carries the words of the
slice `words[i*max_words:(i+1)*max_words]` re-joined with single spaces and a
1-based `chunk_id`. -/
def split_transcript (transcript : List Char) (max_words : ℤ) : Option (List TranscriptChunk) :=
  if max_words = 0 then none
  else
    let words := splitWords transcript
    let num_chunks := (ceilDivQ words.length max_words).toNat
    some ((List.range num_chunks).map (fun i =>
      { chunk_id := i + 1
        content := joinSpace ((words.drop (i * max_words.toNat)).take max_words.toNat) }))

/-- Number of whitespace-delimited words of a transcript. -/
def wordCount (t : List Char) : Nat :=
  (splitWords t).length

/-- The chunk contents produced for a given word list, chunk width and chunk
count; `split_transcript` maps `chunk_id`s over this list. -/
def chunkContents (m : ℕ) (ws : List (List Char)) (k : ℕ) : List (List Char) :=
  (List.range k).map (fun i => joinSpace ((ws.drop (i * m)).take m))

/-- Number of chunks cast to `ℕ`, as a function of word count and positive
chunk width. -/
def kChunks (n mN : ℕ) : ℕ :=
  (ceilDivQ n (mN : ℤ)).toNat

/-- A history record (`app.py`, lines 144-150).  The float timestamp is
modelled as an exact rational; the code never computes with it. -/
structure HistoryRecord where
  videoId : List Char
  timestamp : ℚ
  transcript : List Char
  summary : List Char
  title : List Char
deriving Repr, DecidableEq

/-- Embeds `next((i for i, entry in enumerate(history) if entry["videoId"] == video_id), None)`
(`app.py`, line 159): index of the first record with the given `videoId`. -/
def findVideoIdx (vid : List Char) : List HistoryRecord → Option ℕ
  | [] => none
  | e :: rest => if e.videoId = vid then some 0 else (findVideoIdx vid rest).map (· + 1)

/-- The in-memory append-or-replace step of
`update_history_with_title_and_summary` (`app.py`, lines 159-165): replace in
place at the found index, else append. -/
def upsertHistory (history : List HistoryRecord) (r : HistoryRecord) : List HistoryRecord :=
  match findVideoIdx r.videoId history with
  | some i => history.set i r
  | none => history ++ [r]

/-- Embeds `read_all`: the `history.json` load in `health_check` (`app.py`,
lines 113-119) and in `update_history_with_title_and_summary` (lines 152-157).
`file = none` models `FileNotFoundError`; `parseJson` models `json.load`,
returning `none` on `json.JSONDecodeError`.  Both exceptions are caught and
yield the empty history. -/
def loadHistory (parseJson : List Char → Option (List HistoryRecord))
    (file : Option (List Char)) : List HistoryRecord :=
  match file with
  | none => []
  | some text => (parseJson text).getD []

/-- Python exceptions that the embedded evaluator/parser code can raise. -/
inductive PyExn where
  | keyError
  | attributeError
deriving Repr, DecidableEq

/-- Python dict subscripting `d["k"]`: raises `KeyError` when the key is
absent. -/
def ofKey {α : Type} : Option α → Except PyExn α
  | some v => Except.ok v
  | none => Except.error PyExn.keyError

/-- An option dict as consumed by `generate_evaluation_prompt`
(`questionnaire_evaluator.py`, lines 42-43); `none` fields model absent keys. -/
structure EvalOption where
  oid : Option (List Char)
  otext : Option (List Char)
deriving Repr, DecidableEq

/-- A question dict as consumed by `generate_evaluation_prompt`
(`questionnaire_evaluator.py`, lines 38-44).  `options = none` models the key
being absent or `None` (both falsy under `q.get("options")`). -/
structure EvalQuestion where
  qid : Option (List Char)
  question : Option (List Char)
  qtype : Option (List Char)
  options : Option (List EvalOption)
deriving Repr, DecidableEq

/-- An answer dict (`questionnaire_evaluator.py`, line 39). -/
structure EvalAnswer where
  questionId : Option (List Char)
  answer : Option (List Char)
deriving Repr, DecidableEq

/-- The questionnaire dict passed to `evaluate_answers`; `questions = none`
models a dict without a `"questions"` key. -/
structure EvalQuestionnaire where
  questions : Option (List EvalQuestion)
deriving Repr, DecidableEq

/-- The fixed instructional header of the grading prompt
(`questionnaire_evaluator.py`, lines 14-36). -/
def evalPromptHeader : List Char :=
  ("You are a grading assistant.\n\n"
    ++ "Evaluate the following questionnaire responses. For each question:\n"
    ++ "- If MCQ: mark if the answer is correct and mention the correct option.\n"
    ++ "- If Short/Long Answer: assess clarity, correctness, depth, and give constructive feedback.\n"
    ++ "- Provide a score out of 10 for each question and optionally a comment.\n\n"
    ++ "Return an array of JSON objects like:\n"
    ++ "[\n"
    ++ "  \x7b\n"
    ++ "    \"questionId\": \"...\",\n"
    ++ "    \"type\": \"mcq\" | \"short\" | \"long\",\n"
    ++ "    \"question\": \"...\",\n"
    ++ "    \"answer\": \"...\",\n"
    ++ "    \"correctOption\": \"a\",\n"
    ++ "    \"isCorrect\": true,\n"
    ++ "    \"score\": 8,\n"
    ++ "    \"feedback\": \"...\"\n"
    ++ "  \x7d\n"
    ++ "]\n\n"
    ++ "Questions and answers:\n").data

/-- Embeds `next((a["answer"] for a in answers if a["questionId"] == q["id"]), "")`
(`questionnaire_evaluator.py`, line 39), with Python's evaluation order:
`a["questionId"]` before `q["id"]`, and `a["answer"]` only on a match. -/
def findAnswer (q : EvalQuestion) : List EvalAnswer → Except PyExn (List Char)
  | [] => Except.ok []
  | a :: rest => do
    let aqid ← ofKey a.questionId
    let qid ← ofKey q.qid
    if aqid = qid then ofKey a.answer else findAnswer q rest

/-- The `- (<id>) <text>` option lines of the grading prompt
(`questionnaire_evaluator.py`, lines 42-43). -/
def renderOptions : List EvalOption → Except PyExn (List Char)
  | [] => Except.ok []
  | o :: rest => do
    let oid ← ofKey o.oid
    let otext ← ofKey o.otext
    let tail ← renderOptions rest
    Except.ok ("- (".data ++ oid ++ ") ".data ++ otext ++ [ '\n' ] ++ tail)

/-- Python truthiness of `q.get("options")`: only a non-empty list is truthy. -/
def optionsTruthy : Option (List EvalOption) → Bool
  | some (_ :: _) => true
  | _ => false

/-- The prompt fragment for one question (`questionnaire_evaluator.py`,
lines 38-44). -/
def promptForQuestion (q : EvalQuestion) (answers : List EvalAnswer) :
    Except PyExn (List Char) := do
  let ans ← findAnswer q answers
  let qtext ← ofKey q.question
  let qty ← ofKey q.qtype
  let opts ←
    if qty = "mcq".data ∧ optionsTruthy q.options then renderOptions (q.options.getD [])
    else Except.ok []
  Except.ok ([ '\n' ] ++ "Q: ".data ++ qtext ++ [ '\n' ] ++ opts ++ "A: ".data ++ ans ++ [ '\n' ])

/-- The per-question loop of `generate_evaluation_prompt`. -/
def questionsPrompt (answers : List EvalAnswer) : List EvalQuestion → Except PyExn (List Char)
  | [] => Except.ok []
  | q :: rest => do
    let p ← promptForQuestion q answers
    let tail ← questionsPrompt answers rest
    Except.ok (p ++ tail)

/-- Embeds `generate_evaluation_prompt` (`questionnaire_evaluator.py`, lines 13-46). -/
def generate_evaluation_prompt (questions : List EvalQuestion) (answers : List EvalAnswer) :
    Except PyExn (List Char) := do
  let body ← questionsPrompt answers questions
  Except.ok (evalPromptHeader ++ body)

/-- Index of the last occurrence of `c`. -/
def lastIdxOf (c : Char) : List Char → Option ℕ
  | [] => none
  | d :: rest =>
    match lastIdxOf c rest with
    | some k => some (k + 1)
    | none => if d = c then some 0 else none

/-- Index of the first occurrence of `c`. -/
def firstIdxOf (c : Char) : List Char → Option ℕ
  | [] => none
  | d :: rest => if d = c then some 0 else (firstIdxOf c rest).map (· + 1)

/-- One attempt of the regex `\[.*\]` (DOTALL) anchored at the start of `s`:
it succeeds iff `s` starts with `[` and a `]` occurs later, and the greedy
`.*` then extends to the last `]`. -/
def matchBracketAt (s : List Char) : Option (List Char) :=
  match s with
  | d :: rest =>
    if d = '[' then
      match lastIdxOf ']' rest with
      | some k => some (d :: rest.take (k + 1))
      | none => none
    else none
  | [] => none

/-- Embeds `re.search(r"\[.*\]", text, re.DOTALL)` (`questionnaire_evaluator.py`,
line 58): try the anchored match at each position, left to right. -/
def bracketSearch : List Char → Option (List Char)
  | [] => none
  | c :: rest =>
    match matchBracketAt (c :: rest) with
    | some m => some m
    | none => bracketSearch rest

/-- Modelled from the spec's wording of the extraction step: "the substring
that starts at the first `[` and ends at the last `]`" (if the first `[`
precedes the last `]`).  Compared against `bracketSearch`, which embeds the
code's regex. -/
def bracketSpanSpec (s : List Char) : Option (List Char) :=
  match firstIdxOf '[' s, lastIdxOf ']' s with
  | some i, some j => if i < j then some ((s.drop i).take (j + 1 - i)) else none
  | _, _ => none

/-- Embeds `evaluate_answers` (`questionnaire_evaluator.py`, lines 48-63).  `parse`
models `json.loads` (`none` = `json.JSONDecodeError`); `llm` models
`client.models.generate_content` (`Except.error` = a raised request
exception).  Note that `questionnaire["questions"]` and the whole of
`generate_evaluation_prompt` run before the `try` block, so their exceptions
propagate; everything after is inside `try ... except: return []`. -/
def evaluate_answers {α : Type} (parse : List Char → Option (List α))
    (llm : List Char → Except Unit (List Char))
    (questionnaire : EvalQuestionnaire) (answers : List EvalAnswer) :
    Except PyExn (List α) := do
  let qs ← ofKey questionnaire.questions
  let prompt ← generate_evaluation_prompt qs answers
  Except.ok (match llm prompt with
    | Except.error _ => []
    | Except.ok text =>
      match bracketSearch text with
      | none => []
      | some sub => (parse sub).getD [])

/-- Python `str.strip()` (ASCII whitespace, see `pyWs`). -/
def pyStrip (s : List Char) : List Char :=
  ((s.dropWhile pyWs).reverse.dropWhile pyWs).reverse

/-- Worker for `pySplitlines`, accumulating the current line (reversed). -/
def pySplitlinesGo (cur : List Char) : List Char → List (List Char)
  | [] => [cur.reverse]
  | '\r' :: '\n' :: rest =>
    cur.reverse :: (match rest with | [] => [] | r :: rs => pySplitlinesGo [] (r :: rs))
  | '\n' :: rest =>
    cur.reverse :: (match rest with | [] => [] | r :: rs => pySplitlinesGo [] (r :: rs))
  | '\r' :: rest =>
    cur.reverse :: (match rest with | [] => [] | r :: rs => pySplitlinesGo [] (r :: rs))
  | c :: rest => pySplitlinesGo (c :: cur) rest

/-- Python `str.splitlines()` for the `\n`, `\r\n` and `\r` terminators (the
rarer Unicode line breaks are not modelled); no trailing empty line. -/
def pySplitlines : List Char → List (List Char)
  | [] => []
  | s => pySplitlinesGo [] s

/-- Anchored match of `re.compile(r"- \((.)\)\s*(.+)")` at the start of a
line (`questionnaire_generator.py`, line 42): literal `- (`, one captured
character, `)`, then greedy `\s*` backing off so that `(.+)` keeps at least
one character. -/
def optionLineMatch (line : List Char) : Option (Char × List Char) :=
  match line with
  | '-' :: ' ' :: '(' :: c :: ')' :: rest =>
    if rest.isEmpty then none
    else some (c, rest.drop (min (rest.takeWhile pyWs).length (rest.length - 1)))
  | _ => none

/-- Anchored match of `\*\*Q\d+:\*\*`: returns the remainder after the tag. -/
def matchQTag (s : List Char) : Option (List Char) :=
  match s with
  | '*' :: '*' :: 'Q' :: rest =>
    let ds := rest.takeWhile Char.isDigit
    if ds.isEmpty then none
    else
      match rest.drop ds.length with
      | ':' :: '*' :: '*' :: rem => some rem
      | _ => none
  | _ => none

/-- Fuel-indexed worker for `removeQTag`; the fuel (the input length) is an
upper bound on the number of steps, since each step consumes at least one
character. -/
def removeQTagAux : ℕ → List Char → List Char
  | 0, s => s
  | _ + 1, [] => []
  | fuel + 1, c :: rest =>
    match matchQTag (c :: rest) with
    | some rem => removeQTagAux fuel rem
    | none => c :: removeQTagAux fuel rest

/-- Embeds `re.sub(r"\*\*Q\d+:\*\*", "", line)` (`questionnaire_generator.py`,
line 62): delete every leftmost non-overlapping occurrence of the tag. -/
def removeQTag (s : List Char) : List Char :=
  removeQTagAux s.length s

/-- Checks `line.startswith("### Multiple Choice Questions")`. -/
def isHeaderMCQ (l : List Char) : Bool :=
  "### Multiple Choice Questions".data.isPrefixOf l

/-- Checks `line.startswith("### Short Answer Questions")`. -/
def isHeaderShort (l : List Char) : Bool :=
  "### Short Answer Questions".data.isPrefixOf l

/-- Checks `line.startswith("### Long Answer Questions")`. -/
def isHeaderLong (l : List Char) : Bool :=
  "### Long Answer Questions".data.isPrefixOf l

/-- Checks `line.startswith("**Q")`: a question-marker line. -/
def isQuestionLine (l : List Char) : Bool :=
  "**Q".data.isPrefixOf l

/-- A parsed option dict (`questionnaire_generator.py`, lines 70-73). -/
structure ParsedOption where
  oid : List Char
  otext : List Char
deriving Repr, DecidableEq

/-- A parsed question dict (`questionnaire_generator.py`, lines 60-66):
`qtype` is the section tag at creation time (`none` before any header), and
`options` is `some []` only for the mcq section, `none` otherwise. -/
structure ParsedQuestion where
  qid : List Char
  qtext : List Char
  qtype : Option (List Char)
  required : Bool
  options : Option (List ParsedOption)
deriving Repr, DecidableEq

/-- The parser's mutable state across lines: accumulated questions, current
section tag, in-progress question (`none` models the falsy empty dict), and
the 1-based question counter. -/
structure ParseState where
  questions : List ParsedQuestion
  sec : Option (List Char)
  current : Option ParsedQuestion
  counter : ℕ
deriving Repr, DecidableEq

/-- The dict returned by `parse_questionnaire_response`
(`questionnaire_generator.py`, lines 79-83). -/
structure Questionnaire where
  title : List Char
  description : List Char
  questions : List ParsedQuestion
deriving Repr, DecidableEq

/-- Embeds `opt_id.strip().lower()` for the single captured character: empty when the
character is whitespace. -/
def lowerOptId (c : Char) : List Char :=
  if pyWs c then [] else [c.toLower]

/-- One iteration of the parser loop (`questionnaire_generator.py`,
lines 46-73).  An option line while no question is in progress raises
`KeyError` (`{}["options"]`); one while the current question has `options =
None` raises `AttributeError` (`None.append`). -/
def processLine (st : ParseState) (rawLine : List Char) : Except PyExn ParseState :=
  let line := pyStrip rawLine
  if isHeaderMCQ line then Except.ok { st with sec := some "mcq".data }
  else if isHeaderShort line then Except.ok { st with sec := some "short".data }
  else if isHeaderLong line then Except.ok { st with sec := some "long".data }
  else if isQuestionLine line then
    Except.ok
      { questions := st.questions ++ st.current.toList
        sec := st.sec
        current := some
          { qid := 'q' :: (Nat.repr st.counter).data
            qtext := pyStrip (removeQTag line)
            qtype := st.sec
            required := true
            options := if st.sec = some "mcq".data then some [] else none }
        counter := st.counter + 1 }
  else if st.sec = some "mcq".data then
    match optionLineMatch line with
    | some (c, txt) =>
      match st.current with
      | none => Except.error PyExn.keyError
      | some q =>
        match q.options with
        | none => Except.error PyExn.attributeError
        | some opts =>
          Except.ok { st with current := some { q with options := some (opts ++ [{ oid := q.qid ++ lowerOptId c, otext := pyStrip txt }]) } }
    | none => Except.ok st
  else Except.ok st

/-- The parser's initial state (`questionnaire_generator.py`, lines 39-43). -/
def initState : ParseState :=
  { questions := [], sec := none, current := none, counter := 1 }

/-- Embeds `parse_questionnaire_response` (`questionnaire_generator.py`,
lines 38-83): fold the line loop, then flush the in-progress question. -/
def parse_questionnaire_response (markdown : List Char) : Except PyExn Questionnaire := do
  let st ← (pySplitlines markdown).foldlM processLine initState
  Except.ok
    { title := "Auto-Generated Questionnaire".data
      description := "Answer the following questions based on the video summary.".data
      questions := st.questions ++ st.current.toList }

/-- The outcome of `generate_questionnaire`: a questionnaire dict, or the
`{"error": ...}` dict. -/
inductive GenResult where
  | ok (q : Questionnaire)
  | genError (msg : List Char)
deriving Repr, DecidableEq

/-- Embeds `generate_questionnaire_prompt` (`questionnaire_generator.py`,
lines 15-36). -/
def generate_questionnaire_prompt (summary : List Char) : List Char :=
  ("You are an academic instructor creating a questionnaire from a video summary.\n\n"
    ++ "Guidelines:\n"
    ++ "- Dynamically decide the number and type of questions based on the length and complexity of the summary.\n"
    ++ "- Randomly mix question types:\n"
    ++ "   • Multiple Choice (MCQ) (4 options, one correct)\n"
    ++ "   • Short Answer (1–2 sentence response)\n"
    ++ "   • Long Answer (explanatory/analytical)\n"
    ++ "- Return markdown with headers:\n"
    ++ "   ### Multiple Choice Questions\n"
    ++ "   ### Short Answer Questions\n"
    ++ "   ### Long Answer Questions\n"
    ++ "- Format:\n"
    ++ "   **Q1:** What is ...?\n"
    ++ "   - (a) Option A\n"
    ++ "   - (b) Option B\n"
    ++ "   - (c) Option C\n"
    ++ "   - (d) Option D\n"
    ++ "\nSummary:\n").data ++ summary

/-- Embeds `generate_questionnaire` (`questionnaire_generator.py`, lines 85-97): the
LLM call and the parse both run inside `try`; any exception yields the
`{"error": "Failed to generate questionnaire."}` value. -/
def generate_questionnaire (llm : List Char → Except Unit (List Char)) (summary : List Char) :
    GenResult :=
  match llm (generate_questionnaire_prompt summary) with
  | Except.error _ => GenResult.genError "Failed to generate questionnaire.".data
  | Except.ok text =>
    match parse_questionnaire_response text with
    | Except.error _ => GenResult.genError "Failed to generate questionnaire.".data
    | Except.ok q => GenResult.ok q

/-- The section tag after scanning the given lines (headers are the only
lines that change it). -/
def sectionStep (s : Option (List Char)) (l : List Char) : Option (List Char) :=
  let t := pyStrip l
  if isHeaderMCQ t then some "mcq".data
  else if isHeaderShort t then some "short".data
  else if isHeaderLong t then some "long".data
  else s

/-- No line matches the option pattern while the current section is `mcq`
(tracking section changes from headers). -/
def noStrayOptionLines (s : Option (List Char)) : List (List Char) → Bool
  | [] => true
  | l :: rest =>
    let t := pyStrip l
    if isHeaderMCQ t then noStrayOptionLines (some "mcq".data) rest
    else if isHeaderShort t then noStrayOptionLines (some "short".data) rest
    else if isHeaderLong t then noStrayOptionLines (some "long".data) rest
    else if s = some "mcq".data ∧ (optionLineMatch t).isSome then false
    else noStrayOptionLines s rest

/-- Some line matches the option pattern while the current section is `mcq`,
before any question-marker line has been seen. -/
def straysBeforeQuestion (s : Option (List Char)) : List (List Char) → Bool
  | [] => false
  | l :: rest =>
    let t := pyStrip l
    if isHeaderMCQ t then straysBeforeQuestion (some "mcq".data) rest
    else if isHeaderShort t then straysBeforeQuestion (some "short".data) rest
    else if isHeaderLong t then straysBeforeQuestion (some "long".data) rest
    else if isQuestionLine t then false
    else if s = some "mcq".data ∧ (optionLineMatch t).isSome then true
    else straysBeforeQuestion s rest

/-- A raised `HTTPException(status_code, detail)` (`app.py`, line 289 and
line 293).  FastAPI's `HTTPException` subclasses `Exception`. -/
inductive RouteExc where
  | http (code : ℕ) (detail : List Char)
deriving Repr, DecidableEq

/-- The HTTP status and `success` flag of the route's `JSONResponse`. -/
structure RouteResponse where
  status : ℕ
  success : Bool
deriving Repr, DecidableEq

/-- The `try` block of `generate_questionnaire_route` (`app.py`,
lines 284-295), after authentication: read `summary` (`body.get("summary",
"").strip()`), raise `HTTPException(400)` when it is empty, raise
`HTTPException(500)` when generation fails, else respond 200. -/
def questionnaire_route_try (summaryField : Option (List Char))
    (llm : List Char → Except Unit (List Char)) : Except RouteExc Questionnaire :=
  let summary := pyStrip (summaryField.getD [])
  if summary = [] then Except.error (RouteExc.http 400 "Missing summary in request body.".data)
  else
    match generate_questionnaire llm summary with
    | GenResult.genError msg => Except.error (RouteExc.http 500 msg)
    | GenResult.ok q => Except.ok q

/-- Embeds `generate_questionnaire_route` (`app.py`, lines 275-299): the blanket
`except Exception` catches every exception raised in the `try` block —
including the `HTTPException(400)` itself — and answers with a 500
`JSONResponse`. -/
def generate_questionnaire_route (summaryField : Option (List Char))
    (llm : List Char → Except Unit (List Char)) : RouteResponse :=
  match questionnaire_route_try summaryField llm with
  | Except.ok _ => { status := 200, success := true }
  | Except.error _ => { status := 500, success := false }

theorem ceilDivQ_eq_ceil (n : ℕ) (m : ℤ) (hm : m ≠ 0) :
    ceilDivQ n m = ⌈(n : ℚ) / (m : ℚ)⌉ := by
  rcases lt_or_gt_of_ne hm with hneg | hpos
  · have hNA : ((m.natAbs : ℤ)) = -m := by omega
    have hNAQ : ((m.natAbs : ℕ) : ℚ) = -(m : ℚ) := by
      have h2 : (((m.natAbs : ℕ) : ℤ) : ℚ) = ((-m : ℤ) : ℚ) := congrArg (fun z : ℤ => (z : ℚ)) hNA
      rw [Int.cast_natCast, Int.cast_neg] at h2
      exact h2
    have h1 : ((n : ℚ) / (m : ℚ)) = -(((n : ℤ) : ℚ) / ((m.natAbs : ℕ) : ℚ)) := by
      rw [hNAQ, div_neg, neg_neg]
      norm_num
    rw [h1, Int.ceil_neg, Rat.floor_intCast_div_natCast]
    simp only [ceilDivQ, if_neg (not_lt.mpr (le_of_lt hneg))]
    rw [hNA]
  · have htn : ((m.toNat : ℤ)) = m := by omega
    have htnQ : ((m.toNat : ℕ) : ℚ) = (m : ℚ) := by
      have := congrArg (fun z : ℤ => (z : ℚ)) htn
      push_cast at this
      exact this
    have h1 : ((n : ℚ) / (m : ℚ)) = -(((-(n : ℤ) : ℤ) : ℚ) / ((m.toNat : ℕ) : ℚ)) := by
      rw [htnQ]
      push_cast
      ring
    rw [h1, Int.ceil_neg, Rat.floor_intCast_div_natCast]
    simp only [ceilDivQ, if_pos hpos]
    rw [htn]

theorem ceilDivQ_nonneg (n : ℕ) (m : ℤ) (hm : 0 < m) : 0 ≤ ceilDivQ n m := by
  rw [ceilDivQ_eq_ceil n m (ne_of_gt hm)]
  have : (0 : ℚ) ≤ (n : ℚ) / (m : ℚ) := by
    apply div_nonneg
    · exact_mod_cast Nat.zero_le n
    · exact_mod_cast le_of_lt hm
  exact Int.ceil_nonneg this

theorem ceilDivQ_nonpos (n : ℕ) (m : ℤ) (hm : m < 0) : ceilDivQ n m ≤ 0 := by
  rw [ceilDivQ_eq_ceil n m (ne_of_lt hm)]
  have : ((n : ℚ) / (m : ℚ)) ≤ 0 := by
    apply div_nonpos_of_nonneg_of_nonpos
    · exact_mod_cast Nat.zero_le n
    · exact_mod_cast le_of_lt hm
  have h2 : ⌈(n : ℚ) / (m : ℚ)⌉ ≤ ⌈(0 : ℚ)⌉ := Int.ceil_le_ceil this
  simpa using h2

theorem kChunks_zero (mN : ℕ) : kChunks 0 mN = 0 := by
  unfold kChunks ceilDivQ
  split <;> simp

theorem kChunks_succ (n mN : ℕ) (hm : 0 < mN) (hn : 0 < n) :
    kChunks n mN = kChunks (n - mN) mN + 1 := by
  have hmZ : (0 : ℤ) < (mN : ℤ) := by exact_mod_cast hm
  have hmQ : (0 : ℚ) < (mN : ℚ) := by exact_mod_cast hm
  unfold kChunks
  rw [ceilDivQ_eq_ceil _ _ (ne_of_gt hmZ), ceilDivQ_eq_ceil _ _ (ne_of_gt hmZ)]
  push_cast
  rcases le_or_lt n mN with hle | hlt
  · have h0 : n - mN = 0 := Nat.sub_eq_zero_of_le hle
    rw [h0]
    push_cast
    have hceil1 : ⌈(n : ℚ) / (mN : ℚ)⌉ = 1 := by
      have hub : ((n : ℚ) / (mN : ℚ)) ≤ 1 := by
        rw [div_le_one hmQ]
        exact_mod_cast hle
      have hlb : (0 : ℚ) < (n : ℚ) / (mN : ℚ) := by
        apply div_pos _ hmQ
        exact_mod_cast hn
      have h1 : ⌈(n : ℚ) / (mN : ℚ)⌉ ≤ 1 := Int.ceil_le.mpr (by exact_mod_cast hub)
      have h2 : (0 : ℤ) < ⌈(n : ℚ) / (mN : ℚ)⌉ := Int.lt_ceil.mpr (by exact_mod_cast hlb)
      omega
    rw [hceil1]
    simp [zero_div]
  · have hsum : ((n : ℚ) / (mN : ℚ)) = ((n - mN : ℕ) : ℚ) / (mN : ℚ) + 1 := by
      have hcast : ((n : ℚ)) = ((n - mN : ℕ) : ℚ) + (mN : ℚ) := by
        have := Nat.sub_add_cancel (le_of_lt hlt)
        exact_mod_cast congrArg (fun x => ((x : ℕ) : ℚ)) this.symm
      rw [hcast, add_div, div_self (ne_of_gt hmQ)]
    rw [hsum, Int.ceil_add_one]
    have hnonneg : (0 : ℤ) ≤ ⌈((n - mN : ℕ) : ℚ) / (mN : ℚ)⌉ := by
      apply Int.ceil_nonneg
      apply div_nonneg
      · exact_mod_cast Nat.zero_le _
      · exact le_of_lt hmQ
    omega

theorem kChunks_eq_zero_iff (n mN : ℕ) (hm : 0 < mN) : kChunks n mN = 0 ↔ n = 0 := by
  constructor
  · intro h
    by_contra hn
    rw [kChunks_succ n mN hm (Nat.pos_of_ne_zero hn)] at h
    omega
  · intro h
    rw [h]
    exact kChunks_zero mN

theorem joinSpace_cons (w : List Char) (ws : List (List Char)) (h : ws ≠ []) :
    joinSpace (w :: ws) = w ++ ' ' :: joinSpace ws := by
  cases ws with
  | nil => exact absurd rfl h
  | cons x xs => rfl

theorem joinSpace_append (xs ys : List (List Char)) (hx : xs ≠ []) (hy : ys ≠ []) :
    joinSpace (xs ++ ys) = joinSpace xs ++ ' ' :: joinSpace ys := by
  induction xs with
  | nil => exact absurd rfl hx
  | cons x xs ih =>
    cases xs with
    | nil =>
      simp only [List.singleton_append]
      rw [joinSpace_cons x ys hy]
      rfl
    | cons a as =>
      have hne : (a :: as) ++ ys ≠ [] := by simp
      rw [List.cons_append, joinSpace_cons x ((a :: as) ++ ys) hne,
        joinSpace_cons x (a :: as) (by simp), ih (by simp)]
      simp

theorem chunkContents_succ (m : ℕ) (ws : List (List Char)) (k : ℕ) :
    chunkContents m ws (k + 1) =
      joinSpace (ws.take m) :: chunkContents m (ws.drop m) k := by
  unfold chunkContents
  rw [List.range_succ_eq_map, List.map_cons, List.map_map]
  congr 1
  · simp
  · congr 1
    funext i
    have h : Nat.succ i * m = m + i * m := by rw [Nat.succ_mul, Nat.add_comm]
    simp only [Function.comp_apply, List.drop_drop, h]

theorem chunkContents_ne_nil (m : ℕ) (ws : List (List Char)) (k : ℕ) (hk : 0 < k) :
    chunkContents m ws k ≠ [] := by
  unfold chunkContents
  simp [List.range_eq_nil]
  omega

/-- Space-joining the chunk contents recovers the space-joined word list. -/
theorem joinSpace_chunkContents (mN : ℕ) (hm : 0 < mN) :
    ∀ n (ws : List (List Char)), ws.length = n →
      joinSpace (chunkContents mN ws (kChunks ws.length mN)) = joinSpace ws := by
  intro n
  induction n using Nat.strong_induction_on with
  | _ n ih =>
    intro ws hL
    rcases Nat.eq_zero_or_pos n with h0 | hpos
    · have hnil : ws = [] := List.length_eq_zero.mp (hL.trans h0)
      subst hnil
      simp [kChunks_zero, chunkContents]
    · have hn : 0 < ws.length := by omega
      rw [kChunks_succ ws.length mN hm hn, chunkContents_succ]
      have hdropLen : (ws.drop mN).length = ws.length - mN := by simp
      have hIH : joinSpace (chunkContents mN (ws.drop mN) (kChunks (ws.drop mN).length mN)) =
          joinSpace (ws.drop mN) := by
        apply ih (ws.drop mN).length _ (ws.drop mN) rfl
        omega
      rw [hdropLen] at hIH
      rcases Nat.eq_zero_or_pos (kChunks (ws.length - mN) mN) with hk0 | hkpos
      · have hsub : ws.length - mN = 0 := (kChunks_eq_zero_iff _ mN hm).mp hk0
        have htake : ws.take mN = ws := List.take_of_length_le (by omega)
        rw [hk0, htake]
        rfl
      · have hsub : ws.length - mN ≠ 0 := by
          intro h
          rw [(kChunks_eq_zero_iff _ mN hm).mpr h] at hkpos
          omega
        have hdropNe : ws.drop mN ≠ [] := by
          intro h
          rw [h] at hdropLen
          simp at hdropLen
          omega
        have htakeNe : ws.take mN ≠ [] := by
          intro h
          have hlen : (ws.take mN).length = 0 := by rw [h]; rfl
          rw [List.length_take] at hlen
          omega
        rw [joinSpace_cons _ _ (chunkContents_ne_nil mN (ws.drop mN) _ hkpos), hIH,
          ← joinSpace_append _ _ htakeNe hdropNe, List.take_append_drop]

/-- C2 helper: the word slice underlying every produced chunk. -/
theorem split_transcript_eq (t : List Char) (m : ℤ) (hm : 0 < m) :
    split_transcript t m =
      some ((List.range (kChunks (wordCount t) m.toNat)).map (fun i =>
        { chunk_id := i + 1
          content := joinSpace (((splitWords t).drop (i * m.toNat)).take m.toNat) })) := by
  unfold split_transcript
  rw [if_neg (by omega)]
  unfold kChunks wordCount
  have : ((m.toNat : ℕ) : ℤ) = m := by omega
  rw [this]

/-- C2: for every transcript and positive `max_words`, the chunks' contents
space-joined equal the whitespace-normalized transcript, the number of chunks
is `ceil(word_count / max_words)`, and the `chunk_id`s are `1..len` in order. -/
theorem split_transcript_correct (t : List Char) (m : ℤ) (hm : 0 < m) :
    ∃ chunks, split_transcript t m = some chunks ∧
      joinSpace (chunks.map TranscriptChunk.content) = normalizeWhitespace t ∧
      (chunks.length : ℤ) = ⌈(wordCount t : ℚ) / (m : ℚ)⌉ ∧
      chunks.map TranscriptChunk.chunk_id = List.range' 1 chunks.length := by
  refine ⟨_, split_transcript_eq t m hm, ?_, ?_, ?_⟩
  · have hcomp : (((List.range (kChunks (wordCount t) m.toNat)).map (fun i =>
        ({ chunk_id := i + 1
           content := joinSpace (((splitWords t).drop (i * m.toNat)).take m.toNat) }
          : TranscriptChunk))).map TranscriptChunk.content) =
        chunkContents m.toNat (splitWords t) (kChunks (wordCount t) m.toNat) := by
      simp [chunkContents, List.map_map, Function.comp]
    rw [hcomp]
    exact joinSpace_chunkContents m.toNat (by omega) (splitWords t).length (splitWords t) rfl
  · rw [List.length_map, List.length_range]
    unfold kChunks
    have hcast : ((m.toNat : ℕ) : ℤ) = m := by omega
    rw [hcast, Int.toNat_of_nonneg (ceilDivQ_nonneg _ _ hm), ceilDivQ_eq_ceil _ _ (ne_of_gt hm)]
  · rw [List.map_map, List.length_map, List.length_range, List.range'_eq_map_range]
    apply List.map_congr_left
    intro a _
    simp [Nat.add_comm]

/-- C2 witness: the spec's own end-to-end scenario, `"alpha beta gamma"` with
`max_words = 2`. -/
theorem split_transcript_correct_witness :
    ((0 : ℤ) < 2 ∧
      ∃ chunks, split_transcript "alpha beta gamma".data 2 = some chunks ∧
        joinSpace (chunks.map TranscriptChunk.content) = normalizeWhitespace "alpha beta gamma".data ∧
        (chunks.length : ℤ) = ⌈(wordCount "alpha beta gamma".data : ℚ) / ((2 : ℤ) : ℚ)⌉ ∧
        chunks.map TranscriptChunk.chunk_id = List.range' 1 chunks.length) ∧
      split_transcript "alpha beta gamma".data 2 =
        some [{ chunk_id := 1, content := "alpha beta".data },
              { chunk_id := 2, content := "gamma".data }] :=
  ⟨⟨by decide, split_transcript_correct "alpha beta gamma".data 2 (by decide)⟩, by decide⟩

/-- C1 counterexample: the empty transcript yields zero chunks, not the single
empty chunk the claim asserts. -/
theorem split_transcript_empty_cex :
    split_transcript [] 2000 = some [] ∧
      some ([] : List TranscriptChunk) ≠ some [{ chunk_id := 1, content := [] }] :=
  ⟨by decide, by decide⟩

/-- C1 amended: for the empty transcript and any positive `max_words`, the
chunker returns zero chunks (the empty chunk list). -/
theorem split_transcript_empty (m : ℤ) (hm : 0 < m) :
    split_transcript [] m = some [] := by
  rw [split_transcript_eq [] m hm]
  have h0 : wordCount ([] : List Char) = 0 := rfl
  rw [h0, kChunks_zero]
  simp

/-- C1 amended witness. -/
theorem split_transcript_empty_witness :
    (0 : ℤ) < 2000 ∧ split_transcript [] 2000 = some [] :=
  ⟨by decide, split_transcript_empty 2000 (by decide)⟩

/-- C3 counterexample: at `max_words = -1 ≤ 0` the chunker does not fail; it
returns the empty chunk sequence. -/
theorem split_transcript_negative_cex :
    ((-1 : ℤ) ≤ 0) ∧ split_transcript ['a'] (-1) = some [] :=
  ⟨by decide, by decide⟩

/-- C3 amended: the only failure mode is `max_words = 0` (the Python division
raises `ZeroDivisionError`); for `max_words < 0` the operation returns the
empty chunk sequence instead of failing. -/
theorem split_transcript_failure_modes (t : List Char) (m : ℤ) :
    (split_transcript t m = none ↔ m = 0) ∧
      (m < 0 → split_transcript t m = some []) := by
  constructor
  · constructor
    · intro h
      by_contra hne
      unfold split_transcript at h
      rw [if_neg hne] at h
      simp at h
    · intro h
      subst h
      simp [split_transcript]
  · intro hneg
    have hk : (ceilDivQ (splitWords t).length m).toNat = 0 := by
      have := ceilDivQ_nonpos (splitWords t).length m hneg
      omega
    simp only [split_transcript, if_neg (show ¬ m = 0 by omega), hk, List.range_zero,
      List.map_nil]

/-- C3 amended witness. -/
theorem split_transcript_failure_modes_witness :
    split_transcript ['a'] 0 = none ∧ split_transcript ['a'] (-1) = some [] :=
  ⟨(split_transcript_failure_modes ['a'] 0).1.mpr rfl,
   (split_transcript_failure_modes ['a'] (-1)).2 (by decide)⟩

theorem findVideoIdx_eq_none_iff (vid : List Char) (h : List HistoryRecord) :
    findVideoIdx vid h = none ↔ ∀ e ∈ h, e.videoId ≠ vid := by
  induction h with
  | nil => simp [findVideoIdx]
  | cons e rest ih =>
    by_cases he : e.videoId = vid
    · simp [findVideoIdx, he]
    · simp [findVideoIdx, he, ih]

theorem findVideoIdx_eq_some (vid : List Char) :
    ∀ (h : List HistoryRecord) (i : ℕ), findVideoIdx vid h = some i →
      i < h.length ∧ ∃ e, h[i]? = some e ∧ e.videoId = vid := by
  intro h
  induction h with
  | nil => intro i hi; simp [findVideoIdx] at hi
  | cons e rest ih =>
    intro i hi
    by_cases he : e.videoId = vid
    · simp [findVideoIdx, he] at hi
      subst hi
      exact ⟨by simp, e, by simp, he⟩
    · simp [findVideoIdx, he] at hi
      obtain ⟨j, hj, hji⟩ := hi
      obtain ⟨hlt, e2, he2, hvid⟩ := ih j hj
      subst hji
      refine ⟨by simpa using hlt, e2, ?_, hvid⟩
      simpa using he2

theorem set_getElem?_self {α : Type} :
    ∀ (l : List α) (i : ℕ) (a : α), l[i]? = some a → l.set i a = l := by
  intro l
  induction l with
  | nil => intro i a hi; simp at hi
  | cons x xs ih =>
    intro i a hi
    cases i with
    | zero => simp at hi; simp [hi]
    | succ j =>
      simp at hi
      simp [ih j a hi]

theorem countP_videoId_eq_one (l : List HistoryRecord) (vid : List Char)
    (hnd : (l.map HistoryRecord.videoId).Nodup) (hmem : vid ∈ l.map HistoryRecord.videoId) :
    l.countP (fun e => e.videoId = vid) = 1 := by
  induction l with
  | nil => simp at hmem
  | cons x xs ih =>
    simp only [List.map_cons, List.nodup_cons] at hnd
    simp only [List.map_cons, List.mem_cons] at hmem
    by_cases hx : x.videoId = vid
    · rw [List.countP_cons_of_pos _ _ (by simp [hx])]
      have h0 : xs.countP (fun e => e.videoId = vid) = 0 := by
        rw [List.countP_eq_zero]
        intro e he hcontra
        simp at hcontra
        apply hnd.1
        rw [hx, ← hcontra]
        exact List.mem_map_of_mem _ he
      rw [h0]
    · rw [List.countP_cons_of_neg _ _ (by simp [hx])]
      apply ih hnd.2
      rcases hmem with h | h
      · exact absurd h.symm hx
      · exact h

theorem countP_videoId_set :
    ∀ (l : List HistoryRecord) (i : ℕ) (r e : HistoryRecord), l[i]? = some e →
      e.videoId = r.videoId →
      (l.set i r).countP (fun p => p.videoId = r.videoId) =
        l.countP (fun p => p.videoId = r.videoId) := by
  intro l
  induction l with
  | nil => intro i r e hget; simp at hget
  | cons x xs ih =>
    intro i r e hget hvid
    cases i with
    | zero =>
      simp only [List.getElem?_cons_zero, Option.some.injEq] at hget
      subst hget
      rw [List.set_cons_zero, List.countP_cons_of_pos _ _ (by simp),
        List.countP_cons_of_pos _ _ (by simp [hvid])]
    | succ j =>
      simp only [List.getElem?_cons_succ] at hget
      rw [List.set_cons_succ]
      by_cases hx : x.videoId = r.videoId
      · rw [List.countP_cons_of_pos _ _ (by simp [hx]),
          List.countP_cons_of_pos _ _ (by simp [hx]), ih j r e hget hvid]
      · rw [List.countP_cons_of_neg _ _ (by simp [hx]),
          List.countP_cons_of_neg _ _ (by simp [hx]), ih j r e hget hvid]

/-- C6: upsert appends when the `videoId` is new (+1 record), replaces in
place at the original position when it exists (count unchanged), and keeps
the one-record-per-distinct-`videoId` invariant. -/
theorem upsertHistory_spec (h : List HistoryRecord) (r : HistoryRecord)
    (hnd : (h.map HistoryRecord.videoId).Nodup) :
    ((r.videoId ∉ h.map HistoryRecord.videoId) →
        upsertHistory h r = h ++ [r] ∧ (upsertHistory h r).length = h.length + 1) ∧
    ((r.videoId ∈ h.map HistoryRecord.videoId) →
        (upsertHistory h r).length = h.length ∧
        ∃ i e, findVideoIdx r.videoId h = some i ∧ h[i]? = some e ∧
          e.videoId = r.videoId ∧ upsertHistory h r = h.set i r) ∧
    ((upsertHistory h r).map HistoryRecord.videoId).Nodup ∧
    (upsertHistory h r).countP (fun e => e.videoId = r.videoId) = 1 := by
  cases hfind : findVideoIdx r.videoId h with
  | none =>
    have hnone := (findVideoIdx_eq_none_iff r.videoId h).mp hfind
    have hnotmem : r.videoId ∉ h.map HistoryRecord.videoId := by
      intro hmem
      obtain ⟨e, he, hvid⟩ := List.mem_map.mp hmem
      exact hnone e he hvid
    have hup : upsertHistory h r = h ++ [r] := by
      unfold upsertHistory
      rw [hfind]
    refine ⟨fun _ => ⟨hup, by rw [hup]; simp⟩, fun hmem => absurd hmem hnotmem, ?_, ?_⟩
    · rw [hup, List.map_append, List.nodup_append]
      refine ⟨hnd, by simp, ?_⟩
      intro a ha hb
      simp at hb
      subst hb
      exact hnotmem ha
    · rw [hup, List.countP_append]
      have h0 : h.countP (fun e => e.videoId = r.videoId) = 0 := by
        rw [List.countP_eq_zero]
        intro e he
        simp [hnone e he]
      rw [h0]
      simp
  | some i =>
    obtain ⟨hlt, e, hgete, hvid⟩ := findVideoIdx_eq_some r.videoId h i hfind
    have hmem : r.videoId ∈ h.map HistoryRecord.videoId := by
      rw [← hvid]
      exact List.mem_map_of_mem _ (List.getElem?_mem hgete)
    have hup : upsertHistory h r = h.set i r := by
      unfold upsertHistory
      rw [hfind]
    have hmapget : (h.map HistoryRecord.videoId)[i]? = some r.videoId := by
      rw [List.getElem?_map, hgete]
      simp [hvid]
    have hmapset : (upsertHistory h r).map HistoryRecord.videoId = h.map HistoryRecord.videoId := by
      rw [hup, List.map_set]
      exact set_getElem?_self _ i r.videoId hmapget
    refine ⟨fun habs => absurd hmem habs, fun _ => ⟨by rw [hup]; simp, i, e, rfl, hgete, hvid, hup⟩,
      ?_, ?_⟩
    · rw [hmapset]
      exact hnd
    · rw [hup, countP_videoId_set h i r e hgete hvid]
      exact countP_videoId_eq_one h r.videoId hnd hmem

/-- C6 witness: upserting a fresh id appends; upserting an existing id
replaces in place. -/
theorem upsertHistory_spec_witness :
    (upsertHistory [⟨"a".data, 0, [], [], []⟩] ⟨"b".data, 1, [], [], []⟩ =
      [⟨"a".data, 0, [], [], []⟩] ++ [⟨"b".data, 1, [], [], []⟩]) ∧
    (upsertHistory [⟨"a".data, 0, [], [], []⟩] ⟨"b".data, 1, [], [], []⟩).length =
      [(⟨"a".data, 0, [], [], []⟩ : HistoryRecord)].length + 1 :=
  (upsertHistory_spec [⟨"a".data, 0, [], [], []⟩] ⟨"b".data, 1, [], [], []⟩ (by decide)).1
    (by decide)

/-- C7: reading the history when the file is missing, or when its content
fails to parse as JSON, yields the empty record sequence; `loadHistory` is a
total function, so no parse error propagates. -/
theorem loadHistory_missing_or_malformed
    (parseJson : List Char → Option (List HistoryRecord)) (text : List Char)
    (hbad : parseJson text = none) :
    loadHistory parseJson none = [] ∧ loadHistory parseJson (some text) = [] := by
  constructor
  · rfl
  · simp [loadHistory, hbad]

/-- C7 witness: a parser that rejects everything, on a malformed text. -/
theorem loadHistory_missing_or_malformed_witness :
    loadHistory (fun _ => none) none = [] ∧
      loadHistory (fun _ => none) (some "not json".data) = [] :=
  loadHistory_missing_or_malformed (fun _ => none) "not json".data rfl

theorem bracketSpanSpec_cons_of_ne (c : Char) (rest : List Char) (hc : c ≠ '[') :
    bracketSpanSpec (c :: rest) = bracketSpanSpec rest := by
  have hfirst : firstIdxOf '[' (c :: rest) = (firstIdxOf '[' rest).map (· + 1) := by
    simp [firstIdxOf, hc]
  unfold bracketSpanSpec
  rw [hfirst]
  cases hfr : firstIdxOf '[' rest with
  | none =>
    cases lastIdxOf ']' (c :: rest) <;> cases lastIdxOf ']' rest <;> rfl
  | some i =>
    cases hlr : lastIdxOf ']' rest with
    | some j =>
      have hlast : lastIdxOf ']' (c :: rest) = some (j + 1) := by
        simp [lastIdxOf, hlr]
      rw [hlast]
      simp only [Option.map_some']
      by_cases hij : i < j
      · have h1 : i + 1 < j + 1 := by omega
        have harith : j + 1 + 1 - (i + 1) = j + 1 - i := by omega
        simp [h1, hij, harith, List.drop_succ_cons]
      · have h1 : ¬ (i + 1 < j + 1) := by omega
        simp [h1, hij]
    | none =>
      have hlast : lastIdxOf ']' (c :: rest) = if c = ']' then some 0 else none := by
        simp [lastIdxOf, hlr]
      rw [hlast]
      by_cases hcr : c = ']'
      · rw [if_pos hcr]
        simp only [Option.map_some']
        have h1 : ¬ (i + 1 < 0) := by omega
        simp [h1]
      · rw [if_neg hcr]
        rfl

/-- The regex search `\[.*\]` with DOTALL computes exactly the greedy
outermost span: from the first `[` to the last `]` (when the former precedes
the latter), and fails otherwise. -/
theorem bracketSearch_eq_spec : ∀ s : List Char, bracketSearch s = bracketSpanSpec s := by
  intro s
  induction s with
  | nil => rfl
  | cons c rest ih =>
    by_cases hc : c = '['
    · subst hc
      cases hlast : lastIdxOf ']' rest with
      | some k =>
        have hm : matchBracketAt ('[' :: rest) = some ('[' :: rest.take (k + 1)) := by
          simp [matchBracketAt, hlast]
        have hfirst : firstIdxOf '[' ('[' :: rest) = some 0 := by simp [firstIdxOf]
        have hlast2 : lastIdxOf ']' ('[' :: rest) = some (k + 1) := by
          simp [lastIdxOf, hlast]
        unfold bracketSearch
        rw [hm]
        unfold bracketSpanSpec
        rw [hfirst, hlast2]
        have h1 : 0 < k + 1 := by omega
        simp [h1, List.take_succ_cons]
      | none =>
        have hm : matchBracketAt ('[' :: rest) = none := by
          simp [matchBracketAt, hlast]
        have hlast2 : lastIdxOf ']' ('[' :: rest) = none := by
          simp [lastIdxOf, hlast]
        have hspec : bracketSpanSpec ('[' :: rest) = none := by
          unfold bracketSpanSpec
          rw [hlast2]
          cases firstIdxOf '[' ('[' :: rest) <;> rfl
        have hspecrest : bracketSpanSpec rest = none := by
          unfold bracketSpanSpec
          rw [hlast]
          cases firstIdxOf '[' rest <;> rfl
        unfold bracketSearch
        rw [hm, ih, hspec, hspecrest]
    · have hm : matchBracketAt (c :: rest) = none := by
        simp [matchBracketAt, hc]
      unfold bracketSearch
      rw [hm, ih, bracketSpanSpec_cons_of_ne c rest hc]

theorem exceptOkBind {ε α β : Type} (a : α) (f : α → Except ε β) :
    (Except.ok a >>= f : Except ε β) = f a := rfl

/-- Running `evaluate_answers` once the pre-`try` steps succeed: the whole
`try` block's result, with every exception inside it converted to `[]`. -/
theorem evaluate_answers_run {α : Type} (parse : List Char → Option (List α))
    (llm : List Char → Except Unit (List Char)) (qn : EvalQuestionnaire)
    (ans : List EvalAnswer) (qs : List EvalQuestion) (p : List Char)
    (hq : qn.questions = some qs)
    (hp : generate_evaluation_prompt qs ans = Except.ok p) :
    evaluate_answers parse llm qn ans = Except.ok (match llm p with
      | Except.error _ => []
      | Except.ok text =>
        match bracketSearch text with
        | none => []
        | some sub => (parse sub).getD []) := by
  unfold evaluate_answers
  rw [hq]
  simp only [ofKey]
  rw [exceptOkBind, hp, exceptOkBind]

/-- C4 amended: once the questionnaire has a `questions` key and prompt
construction succeeds, `evaluate_answers` cannot fail: a failing collaborator
request yields `[]`, and in every case some result list is returned. -/
theorem evaluate_answers_catches {α : Type} (parse : List Char → Option (List α))
    (llm : List Char → Except Unit (List Char)) (qn : EvalQuestionnaire)
    (ans : List EvalAnswer) (qs : List EvalQuestion) (p : List Char)
    (hq : qn.questions = some qs)
    (hp : generate_evaluation_prompt qs ans = Except.ok p) :
    (llm p = Except.error () → evaluate_answers parse llm qn ans = Except.ok []) ∧
    ∃ r, evaluate_answers parse llm qn ans = Except.ok r := by
  have hrun := evaluate_answers_run parse llm qn ans qs p hq hp
  constructor
  · intro hfail
    rw [hrun, hfail]
  · exact ⟨_, hrun⟩

/-- C4 counterexample: a questionnaire without a `"questions"` key raises
`KeyError` before the `try` block, so the exception escapes `evaluate_answers`
instead of being converted to `[]`. -/
theorem evaluate_answers_throws_cex :
    evaluate_answers (fun _ => (none : Option (List Unit))) (fun _ => Except.error ())
      ⟨none⟩ [] = Except.error PyExn.keyError := rfl

/-- C4 amended witness. -/
theorem evaluate_answers_catches_witness :
    ((⟨some []⟩ : EvalQuestionnaire).questions = some [] ∧
      generate_evaluation_prompt [] [] = Except.ok (evalPromptHeader ++ [])) ∧
    ((fun _ : List Char => (Except.error () : Except Unit (List Char))) (evalPromptHeader ++ []) =
        Except.error () →
      evaluate_answers (fun _ => (none : Option (List Unit))) (fun _ => Except.error ())
        ⟨some []⟩ [] = Except.ok []) ∧
    ∃ r, evaluate_answers (fun _ => (none : Option (List Unit))) (fun _ => Except.error ())
      ⟨some []⟩ [] = Except.ok r :=
  ⟨⟨rfl, rfl⟩,
    evaluate_answers_catches (fun _ => (none : Option (List Unit))) (fun _ => Except.error ())
      ⟨some []⟩ [] [] (evalPromptHeader ++ []) rfl rfl⟩

/-- C8: the extraction step takes exactly the substring from the first `[` to
the last `]` (greedy outermost match), parses it, and returns `[]` when there
is no such bracket pair or the parse fails — never an error. -/
theorem evaluate_answers_extraction {α : Type} (parse : List Char → Option (List α))
    (llm : List Char → Except Unit (List Char)) (qn : EvalQuestionnaire)
    (ans : List EvalAnswer) (qs : List EvalQuestion) (p text : List Char)
    (hq : qn.questions = some qs)
    (hp : generate_evaluation_prompt qs ans = Except.ok p)
    (hllm : llm p = Except.ok text) :
    bracketSearch text = bracketSpanSpec text ∧
    evaluate_answers parse llm qn ans = Except.ok (match bracketSpanSpec text with
      | none => []
      | some sub => (parse sub).getD []) := by
  refine ⟨bracketSearch_eq_spec text, ?_⟩
  rw [evaluate_answers_run parse llm qn ans qs p hq hp, hllm]
  show Except.ok (match bracketSearch text with
    | none => []
    | some sub => (parse sub).getD []) = _
  rw [bracketSearch_eq_spec]

/-- C8 witness: a response with two `[`s and an unmatched trailing `[`; the
span runs from the first `[` to the last `]`, and the failing JSON parse
degrades to `[]`. -/
theorem evaluate_answers_extraction_witness :
    (bracketSearch "see [it] ok [maybe".data = some "[it]".data) ∧
    ((⟨some []⟩ : EvalQuestionnaire).questions = some [] ∧
      generate_evaluation_prompt [] [] = Except.ok (evalPromptHeader ++ []) ∧
      (fun _ : List Char => (Except.ok "see [it] ok [maybe".data : Except Unit (List Char)))
          (evalPromptHeader ++ []) = Except.ok "see [it] ok [maybe".data) ∧
    (bracketSearch "see [it] ok [maybe".data = bracketSpanSpec "see [it] ok [maybe".data ∧
      evaluate_answers (fun _ => (none : Option (List Unit)))
        (fun _ => Except.ok "see [it] ok [maybe".data) ⟨some []⟩ [] =
        Except.ok (match bracketSpanSpec "see [it] ok [maybe".data with
          | none => []
          | some sub => ((fun _ => (none : Option (List Unit))) sub).getD [])) :=
  ⟨by decide, ⟨rfl, rfl, rfl⟩,
    evaluate_answers_extraction (fun _ => (none : Option (List Unit)))
      (fun _ => Except.ok "see [it] ok [maybe".data) ⟨some []⟩ [] []
      (evalPromptHeader ++ []) "see [it] ok [maybe".data rfl rfl rfl⟩

theorem foldlM_no_questions :
    ∀ (lines : List (List Char)) (s : Option (List Char)),
      (∀ l ∈ lines, isQuestionLine (pyStrip l) = false) →
      noStrayOptionLines s lines = true →
      ∃ s2, lines.foldlM processLine ⟨[], s, none, 1⟩ = Except.ok ⟨[], s2, none, 1⟩ := by
  intro lines
  induction lines with
  | nil => intro s _ _; exact ⟨s, rfl⟩
  | cons l rest ih =>
    intro s hq hopt
    have hq1 : isQuestionLine (pyStrip l) = false := hq l (by simp)
    have hqr : ∀ x ∈ rest, isQuestionLine (pyStrip x) = false := fun x hx => hq x (by simp [hx])
    rw [List.foldlM_cons]
    by_cases hm : isHeaderMCQ (pyStrip l)
    · have hstep : processLine ⟨[], s, none, 1⟩ l = Except.ok ⟨[], some "mcq".data, none, 1⟩ := by
        simp [processLine, hm]
      rw [hstep, exceptOkBind]
      exact ih _ hqr (by simpa [noStrayOptionLines, hm] using hopt)
    · by_cases hs : isHeaderShort (pyStrip l)
      · have hstep : processLine ⟨[], s, none, 1⟩ l =
            Except.ok ⟨[], some "short".data, none, 1⟩ := by
          simp [processLine, hm, hs]
        rw [hstep, exceptOkBind]
        exact ih _ hqr (by simpa [noStrayOptionLines, hm, hs] using hopt)
      · by_cases hl : isHeaderLong (pyStrip l)
        · have hstep : processLine ⟨[], s, none, 1⟩ l =
              Except.ok ⟨[], some "long".data, none, 1⟩ := by
            simp [processLine, hm, hs, hl]
          rw [hstep, exceptOkBind]
          exact ih _ hqr (by simpa [noStrayOptionLines, hm, hs, hl] using hopt)
        · by_cases hmcq : s = some "mcq".data
          · have hoptline : optionLineMatch (pyStrip l) = none := by
              cases h2 : optionLineMatch (pyStrip l) with
              | none => rfl
              | some v =>
                exfalso
                have : (optionLineMatch (pyStrip l)).isSome := by rw [h2]; rfl
                simp [noStrayOptionLines, hm, hs, hl, hmcq, this] at hopt
            have hstep : processLine ⟨[], s, none, 1⟩ l = Except.ok ⟨[], s, none, 1⟩ := by
              simp [processLine, hm, hs, hl, hq1, hmcq, hoptline]
            rw [hstep, exceptOkBind]
            exact ih _ hqr
              (by simpa [noStrayOptionLines, hm, hs, hl, hmcq, hoptline] using hopt)
          · have hstep : processLine ⟨[], s, none, 1⟩ l = Except.ok ⟨[], s, none, 1⟩ := by
              simp [processLine, hm, hs, hl, hq1, hmcq]
            rw [hstep, exceptOkBind]
            exact ih _ hqr (by simpa [noStrayOptionLines, hm, hs, hl, hmcq] using hopt)

theorem foldlM_strays :
    ∀ (lines : List (List Char)) (s : Option (List Char)) (qs : List ParsedQuestion) (cnt : ℕ),
      straysBeforeQuestion s lines = true →
      lines.foldlM processLine ⟨qs, s, none, cnt⟩ = Except.error PyExn.keyError := by
  intro lines
  induction lines with
  | nil => intro s qs cnt h; simp [straysBeforeQuestion] at h
  | cons l rest ih =>
    intro s qs cnt h
    rw [List.foldlM_cons]
    by_cases hm : isHeaderMCQ (pyStrip l)
    · have hstep : processLine ⟨qs, s, none, cnt⟩ l =
          Except.ok ⟨qs, some "mcq".data, none, cnt⟩ := by
        simp [processLine, hm]
      rw [hstep, exceptOkBind]
      exact ih _ _ _ (by simpa [straysBeforeQuestion, hm] using h)
    · by_cases hs : isHeaderShort (pyStrip l)
      · have hstep : processLine ⟨qs, s, none, cnt⟩ l =
            Except.ok ⟨qs, some "short".data, none, cnt⟩ := by
          simp [processLine, hm, hs]
        rw [hstep, exceptOkBind]
        exact ih _ _ _ (by simpa [straysBeforeQuestion, hm, hs] using h)
      · by_cases hl : isHeaderLong (pyStrip l)
        · have hstep : processLine ⟨qs, s, none, cnt⟩ l =
              Except.ok ⟨qs, some "long".data, none, cnt⟩ := by
            simp [processLine, hm, hs, hl]
          rw [hstep, exceptOkBind]
          exact ih _ _ _ (by simpa [straysBeforeQuestion, hm, hs, hl] using h)
        · by_cases hql : isQuestionLine (pyStrip l)
          · exfalso
            simp [straysBeforeQuestion, hm, hs, hl, hql] at h
          · by_cases hmcq : s = some "mcq".data
            · cases hol : optionLineMatch (pyStrip l) with
              | some v =>
                obtain ⟨c, txt⟩ := v
                have hstep : processLine ⟨qs, s, none, cnt⟩ l = Except.error PyExn.keyError := by
                  simp [processLine, hm, hs, hl, hql, hmcq, hol]
                rw [hstep]
                rfl
              | none =>
                have hstep : processLine ⟨qs, s, none, cnt⟩ l = Except.ok ⟨qs, s, none, cnt⟩ := by
                  simp [processLine, hm, hs, hl, hql, hmcq, hol]
                rw [hstep, exceptOkBind]
                exact ih _ _ _
                  (by simpa [straysBeforeQuestion, hm, hs, hl, hql, hmcq, hol] using h)
            · have hstep : processLine ⟨qs, s, none, cnt⟩ l = Except.ok ⟨qs, s, none, cnt⟩ := by
                simp [processLine, hm, hs, hl, hql, hmcq]
              rw [hstep, exceptOkBind]
              exact ih _ _ _ (by simpa [straysBeforeQuestion, hm, hs, hl, hql, hmcq] using h)

/-- C9 counterexample: this input has zero question-marker lines, yet the
parser raises (`KeyError`) instead of returning an empty questionnaire,
because an option line appears in the MCQ section with no question open. -/
theorem parse_questionnaire_response_cex :
    ((pySplitlines "### Multiple Choice Questions\n- (a) Nope".data).all
        (fun l => !(isQuestionLine (pyStrip l))) = true) ∧
    parse_questionnaire_response "### Multiple Choice Questions\n- (a) Nope".data =
      Except.error PyExn.keyError :=
  ⟨by decide, rfl⟩

/-- C9 amended: with zero question-marker lines *and no option-pattern line
while the section is mcq*, the parser returns an empty questionnaire and no
error; and the single-MCQ example parses to one `mcq` question with exactly
the four options `q1a..q1d`. -/
theorem parse_questionnaire_response_spec (md : List Char)
    (hq : (pySplitlines md).all (fun l => !(isQuestionLine (pyStrip l))) = true)
    (hopt : noStrayOptionLines none (pySplitlines md) = true) :
    parse_questionnaire_response md =
      Except.ok ⟨"Auto-Generated Questionnaire".data,
        "Answer the following questions based on the video summary.".data, []⟩ ∧
    parse_questionnaire_response
        "### Multiple Choice Questions\n**Q1:** text\n- (a) Alpha\n- (b) Beta\n- (c) Gamma\n- (d) Delta".data =
      Except.ok ⟨"Auto-Generated Questionnaire".data,
        "Answer the following questions based on the video summary.".data,
        [⟨"q1".data, "text".data, some "mcq".data, true,
          some [⟨"q1a".data, "Alpha".data⟩, ⟨"q1b".data, "Beta".data⟩,
            ⟨"q1c".data, "Gamma".data⟩, ⟨"q1d".data, "Delta".data⟩]⟩]⟩ := by
  constructor
  · have hq2 : ∀ l ∈ pySplitlines md, isQuestionLine (pyStrip l) = false := by
      intro l hl
      have := List.all_eq_true.mp hq l hl
      simpa using this
    obtain ⟨s2, hfold⟩ := foldlM_no_questions (pySplitlines md) none hq2 hopt
    unfold parse_questionnaire_response initState
    rw [hfold]
    rfl
  · exact rfl

/-- C9 amended witness: free text, a header, and an option line outside the
MCQ section are all ignored. -/
theorem parse_questionnaire_response_spec_witness :
    ((pySplitlines "hello\n### Short Answer Questions\n- (a) ignored".data).all
        (fun l => !(isQuestionLine (pyStrip l))) = true) ∧
    noStrayOptionLines none
      (pySplitlines "hello\n### Short Answer Questions\n- (a) ignored".data) = true ∧
    (parse_questionnaire_response "hello\n### Short Answer Questions\n- (a) ignored".data =
        Except.ok ⟨"Auto-Generated Questionnaire".data,
          "Answer the following questions based on the video summary.".data, []⟩ ∧
      parse_questionnaire_response
          "### Multiple Choice Questions\n**Q1:** text\n- (a) Alpha\n- (b) Beta\n- (c) Gamma\n- (d) Delta".data =
        Except.ok ⟨"Auto-Generated Questionnaire".data,
          "Answer the following questions based on the video summary.".data,
          [⟨"q1".data, "text".data, some "mcq".data, true,
            some [⟨"q1a".data, "Alpha".data⟩, ⟨"q1b".data, "Beta".data⟩,
              ⟨"q1c".data, "Gamma".data⟩, ⟨"q1d".data, "Delta".data⟩]⟩]⟩) :=
  ⟨by decide, by decide,
    parse_questionnaire_response_spec "hello\n### Short Answer Questions\n- (a) ignored".data
      (by decide) (by decide)⟩

/-- C10: an option-pattern line inside the MCQ section before any
question-marker line makes the parser raise `KeyError` (there is no
in-progress question dict to hold the option), and `generate_questionnaire`
therefore returns the generation-failure error value. -/
theorem generate_questionnaire_stray_option (md summary : List Char)
    (llm : List Char → Except Unit (List Char))
    (hstray : straysBeforeQuestion none (pySplitlines md) = true)
    (hllm : llm (generate_questionnaire_prompt summary) = Except.ok md) :
    parse_questionnaire_response md = Except.error PyExn.keyError ∧
    generate_questionnaire llm summary =
      GenResult.genError "Failed to generate questionnaire.".data := by
  have hparse : parse_questionnaire_response md = Except.error PyExn.keyError := by
    have h2 := foldlM_strays (pySplitlines md) none [] 1 hstray
    unfold parse_questionnaire_response initState
    rw [h2]
    rfl
  refine ⟨hparse, ?_⟩
  unfold generate_questionnaire
  rw [hllm]
  show (match parse_questionnaire_response md with
    | Except.error _ => GenResult.genError "Failed to generate questionnaire.".data
    | Except.ok q => GenResult.ok q) = _
  rw [hparse]

/-- C10 witness. -/
theorem generate_questionnaire_stray_option_witness :
    straysBeforeQuestion none
      (pySplitlines "### Multiple Choice Questions\n- (a) x".data) = true ∧
    ((fun _ : List Char =>
        (Except.ok "### Multiple Choice Questions\n- (a) x".data : Except Unit (List Char)))
      (generate_questionnaire_prompt "s".data) =
        Except.ok "### Multiple Choice Questions\n- (a) x".data) ∧
    (parse_questionnaire_response "### Multiple Choice Questions\n- (a) x".data =
        Except.error PyExn.keyError ∧
      generate_questionnaire
          (fun _ => Except.ok "### Multiple Choice Questions\n- (a) x".data) "s".data =
        GenResult.genError "Failed to generate questionnaire.".data) :=
  ⟨by decide, rfl,
    generate_questionnaire_stray_option "### Multiple Choice Questions\n- (a) x".data "s".data
      (fun _ => Except.ok "### Multiple Choice Questions\n- (a) x".data) (by decide) rfl⟩

/-- C5: a request with no `summary` field does raise `HTTPException(400)`
inside the `try` block, but the blanket `except Exception` converts it into a
500 response, so the client receives 500, not the 400 the spec promises. -/
theorem questionnaire_route_missing_summary (llm : List Char → Except Unit (List Char)) :
    questionnaire_route_try none llm =
      Except.error (RouteExc.http 400 "Missing summary in request body.".data) ∧
    generate_questionnaire_route none llm = { status := 500, success := false } :=
  ⟨rfl, rfl⟩
